import Mathlib

/-!
Shallow embedding of the event-detection and inspection code of py_agata:
`py_agata/inspection/__init__.py`, `time_in_ranges/__init__.py`, and the
day-window construction of `py_agata/variability/__init__.py`.

Modelling conventions:
* Timestamps are whole minutes (naturals).  The homogeneous grid enforced by
  `check_homogeneous_timegrid` puts sample `i` at `t0 + i * delta`.
* A glucose value is `Option ℚ`: `none` models the NaN missing-value
  sentinel; every ordered comparison against `none` is `false`, exactly as
  NaN comparisons behave in Python.
* Python `timedelta` normalisation: for an elapsed time of `m` whole
  minutes, `.seconds / 60` equals `m mod 1440` — the whole-day part is
  discarded (also for negative differences, which Python stores with a
  negative `days` field and a nonnegative `seconds` field).
* Fallible code returns `Except String _`; `.error` models a raised
  Python exception (`IndexError`, `ZeroDivisionError`, `ValueError`).
-/

deriving instance DecidableEq for Except

namespace PyAgata

/-- Python `(tb - ta).seconds / 60` for whole-minute timestamps `ta`, `tb`:
the elapsed minutes reduced modulo one day (1440 minutes). -/
def elapsedMin (ta tb : Nat) : Nat := (((tb : Int) - (ta : Int)).emod 1440).toNat

/-- Exact rational division, written through `mkRat` so that it evaluates by
kernel reduction; `ratDiv_eq_div` below shows it agrees with `(· / ·)` on the
positive divisors this development uses. -/
def ratDiv (a b : ℚ) : ℚ := mkRat (a.num * (b.den : Int)) (a.den * b.num.natAbs)

/-- Exact rational multiplication through `mkRat`; `ratMul_eq_mul` below
shows it agrees with `(· * ·)`. -/
def ratMul (a b : ℚ) : ℚ := mkRat (a.num * b.num) (a.den * b.den)

/-- `int(np.round(a / b))` for naturals `a`, `b` with `b ≠ 0`: round half to
even of the exact quotient. -/
def pyRoundDiv (a b : Nat) : Nat :=
  let q := a / b
  let r := a % b
  if 2 * r < b then q
  else if b < 2 * r then q + 1
  else if q % 2 = 0 then q else q + 1

/-- A validated glucose trace on a homogeneous time grid (the only inputs
that pass `check_homogeneous_timegrid`): sample `i` is at minute
`t0 + i * delta`, and `glucose` holds the values (`none` = NaN). -/
structure GlucoseData where
  t0 : Nat
  delta : Nat
  glucose : List (Option ℚ)
deriving DecidableEq, Repr

/-- Timestamp (in minutes) of sample `i`. -/
def GlucoseData.time (d : GlucoseData) (i : Nat) : Nat := d.t0 + i * d.delta

/-- Timestamp lookup at a possibly negative numpy index (numpy wraps a
negative index around the end of the array). -/
def GlucoseData.timeAt (d : GlucoseData) (i : Int) : Nat :=
  d.time (if i < 0 then ((d.glucose.length : Int) + i).toNat else i.toNat)

/-- `sample_time = (t1 - t0).seconds / 60` of the detectors: the grid step
reduced modulo one day. -/
def GlucoseData.sampleTime (d : GlucoseData) : Nat := d.delta % 1440

/-- `number_days_of_observation` (inspection lines 137-177): the span between
the first and the last timestamp, put through `timedelta.seconds` (which
drops whole days) and divided by one day; NaN on an empty series. -/
def number_days_of_observation (d : GlucoseData) : Option ℚ :=
  if d.glucose.length = 0 then none
  else some (ratDiv (((d.glucose.length - 1) * d.delta % 1440 : Nat) : ℚ) 1440)

/-- The qualifying test `data.glucose.values[t] < th` of the hypoglycemic
detectors (`NaN < th` is `false`). -/
def hypoQual (th : ℚ) : Option ℚ → Bool
  | none => false
  | some v => decide (v < th)

/-- The qualifying test `data.glucose.values[t] > th` of the hyperglycemic
detector (`NaN > th` is `false`). -/
def hyperQual (th : ℚ) : Option ℚ → Bool
  | none => false
  | some v => decide (th < v)

/-- The mutable state of the detector loop: the `count`/`flag` pair of the
source, the provisional start timestamp, and the events emitted so far
(start timestamps and durations in minutes). -/
structure ScanState where
  count : Int
  flag : Int
  tempStart : Nat
  starts : List Nat
  durs : List Nat
deriving DecidableEq, Repr

def initState : ScanState := ⟨0, 0, 0, [], []⟩

/-- One iteration of the detector loop (inspection lines 256-287), over
sample index `t`.  `nIn` is the entry-confirmation sample count
(`n_samples` / `n_samples_in`), `nOut` the exit count (`n_samples` /
`n_samples_out`). -/
def eventStep (d : GlucoseData) (qual : Option ℚ → Bool) (nIn nOut : Int)
    (s : ScanState) (t : Nat) : ScanState :=
  let s1 : ScanState :=
    if qual (d.glucose.getD t none) then
      let s' := if s.count ≤ 0 then { s with count := 0, tempStart := d.time t } else s
      let c := min nIn (s'.count + 1)
      { s' with count := c, flag := if c = nIn ∨ s'.flag = -1 then 1 else s'.flag }
    else
      let s' :=
        if s.flag = 0 ∧ 0 < s.count then { s with count := 0 }
        else if s.flag = 1 then { s with count := nOut, flag := -1 }
        else s
      { s' with count := s'.count - 1 }
  if s1.count = 0 ∧ s1.flag = -1 then
    { s1 with
      starts := s1.starts ++ [s1.tempStart]
      durs := s1.durs ++ [elapsedMin s1.tempStart (d.timeAt ((t : Int) - (nOut - 1)))]
      flag := 0 }
  else s1

/-- The whole detector loop `for t in range(size)`. -/
def eventScan (d : GlucoseData) (qual : Option ℚ → Bool) (nIn nOut : Int) : ScanState :=
  (List.range d.glucose.length).foldl (eventStep d qual nIn nOut) initState

/-- The two post-loop blocks (inspection lines 289-300 resp. 560-571): an
episode still open when the scan ends — mid exit-countdown, or confirmed and
still qualifying at the last sample — is emitted from the final loop state,
with `t` frozen at the last index. -/
def eventTail (d : GlucoseData) (nIn nOut : Int) (s : ScanState) : ScanState :=
  let t : Int := (d.glucose.length : Int) - 1
  let s :=
    if 0 < s.count ∧ s.flag = -1 then
      { s with
        starts := s.starts ++ [s.tempStart]
        durs := s.durs ++ [elapsedMin s.tempStart (d.timeAt (t - (nOut - s.count - 1)))] }
    else s
  if s.count = nIn ∧ s.flag = 1 then
    { s with
      starts := s.starts ++ [s.tempStart]
      durs := s.durs ++ [elapsedMin s.tempStart (d.timeAt t) + d.sampleTime] }
  else s

/-- The dictionary the detectors return. -/
structure EpisodeResult where
  time_start : List Nat
  time_end : List Nat
  duration : List Nat
  mean_duration : Option ℚ
  events_per_week : Option ℚ
deriving DecidableEq, Repr

/-- The initialised result of the detectors before any scan (all summary
fields NaN). -/
def emptyResult : EpisodeResult := ⟨[], [], [], none, none⟩

/-- Entry/exit sample count: `int(np.round(minutes / sample_time))`. -/
def nSamplesOf (d : GlucoseData) (minutes : Nat) : Int :=
  (pyRoundDiv minutes d.sampleTime : Int)

/-- The shared body of `find_hypoglycemic_events`, `find_hyperglycemic_events`
and `find_extended_hypoglycemic_events` (inspection lines 180-583), which
differ only in the qualifying test and the entry/exit windows in minutes.
An empty series returns the all-NaN result; a single-sample series raises
`IndexError` at `data.t.values[1]`; a grid step that is a multiple of one day
makes `sample_time` zero and raises `ZeroDivisionError` at
`15 / sample_time`; a span that is a multiple of one day makes
`number_days_of_observation` zero and raises `ZeroDivisionError` at the
events-per-week division. -/
def findEvents (d : GlucoseData) (qual : Option ℚ → Bool)
    (entryMinutes exitMinutes : Nat) : Except String EpisodeResult :=
  if d.glucose.length = 0 then .ok emptyResult
  else if d.glucose.length = 1 then .error "IndexError"
  else if d.sampleTime = 0 then .error "ZeroDivisionError"
  else
    let nIn := nSamplesOf d entryMinutes
    let nOut := nSamplesOf d exitMinutes
    let s := eventTail d nIn nOut (eventScan d qual nIn nOut)
    let timeEnd := (s.starts.zip s.durs).map (fun p => p.1 + p.2)
    let meanDur : Option ℚ :=
      if s.durs = [] then none
      else some (ratDiv ((s.durs.sum : Nat) : ℚ) ((s.durs.length : Nat) : ℚ))
    match number_days_of_observation d with
    | none => .error "unreachable: series known non-empty"
    | some nDays =>
      if nDays = 0 then .error "ZeroDivisionError"
      else
        .ok
          { time_start := s.starts
            time_end := timeEnd
            duration := s.durs
            mean_duration := meanDur
            events_per_week := some (ratMul (ratDiv ((s.starts.length : Nat) : ℚ) nDays) 7) }

/-- `find_hypoglycemic_events` (inspection lines 180-312): entry and exit
windows of 15 minutes, qualifying test `glucose < th`. -/
def find_hypoglycemic_events (d : GlucoseData) (th : ℚ) : Except String EpisodeResult :=
  findEvents d (hypoQual th) 15 15

/-- `find_hyperglycemic_events` (inspection lines 315-447): entry and exit
windows of 15 minutes, qualifying test `glucose > th`. -/
def find_hyperglycemic_events (d : GlucoseData) (th : ℚ) : Except String EpisodeResult :=
  findEvents d (hyperQual th) 15 15

/-- `find_extended_hypoglycemic_events` (inspection lines 450-583): entry
window of 120 minutes, exit window of 15 minutes, qualifying test
`glucose < th`. -/
def find_extended_hypoglycemic_events (d : GlucoseData) (th : ℚ) :
    Except String EpisodeResult :=
  findEvents d (hypoQual th) 120 15

/-! ### Level-split variants -/

/-- The dictionary returned by the by-level finders: the all-events result
(key `hypo` / `hyper`), and the level-1 and level-2 results. -/
structure LevelEvents where
  allEvents : EpisodeResult
  l1 : EpisodeResult
  l2 : EpisodeResult
deriving DecidableEq, Repr

/-- The matching loop of the by-level finders (inspection lines 677-684 and
791-798): for each level-2 start, the all-events starts strictly before it
are found (`distances < 0`), and the last such (the closest strictly
preceding start) has its level-1 flag cleared. -/
def l2Flags (allStarts l2Starts : List Nat) : List Bool :=
  l2Starts.foldl
    (fun flags s2 =>
      let idxs := (List.range allStarts.length).filter
        (fun i => ((allStarts.getD i 0 : Int) - (s2 : Int)) < 0)
      match idxs.getLast? with
      | some i => flags.set i false
      | none => flags)
    (List.replicate allStarts.length true)

/-- Numpy boolean-mask indexing `xs[flags]`. -/
def maskFilter {α : Type} (xs : List α) (flags : List Bool) : List α :=
  ((xs.zip flags).filter (fun p => p.2)).map (fun p => p.1)

/-- The level-1 bucket and the assembled result, shared by
`find_hypoglycemic_events_by_level` and `find_hyperglycemic_events_by_level`
(inspection lines 677-697 resp. 791-811).  `np.mean` of an empty array is
NaN; on an empty series `number_days_of_observation` is NaN and
`0 / nan * 7` is NaN (no exception), while a nonzero span that is a
multiple of one day gives `n_days = 0` and `ZeroDivisionError`. -/
def assembleByLevel (d : GlucoseData) (allEv l2Ev : EpisodeResult) :
    Except String LevelEvents :=
  let flags := l2Flags allEv.time_start l2Ev.time_start
  let l1start := maskFilter allEv.time_start flags
  let l1end := maskFilter allEv.time_end flags
  let l1dur := maskFilter allEv.duration flags
  let l1mean : Option ℚ :=
    if l1dur = [] then none
    else some (ratDiv ((l1dur.sum : Nat) : ℚ) ((l1dur.length : Nat) : ℚ))
  match number_days_of_observation d with
  | none => .ok ⟨allEv, ⟨l1start, l1end, l1dur, l1mean, none⟩, l2Ev⟩
  | some nDays =>
    if nDays = 0 then .error "ZeroDivisionError"
    else .ok ⟨allEv, ⟨l1start, l1end, l1dur, l1mean,
      some (ratMul (ratDiv ((l1start.length : Nat) : ℚ) nDays) 7)⟩, l2Ev⟩

/-- `find_hypoglycemic_events_by_level` (inspection lines 586-697).  Note the
threshold selection: `diabetes` gives 70/54, and EVERY other string — not
just `pregnancy` — silently gives 63/54. -/
def find_hypoglycemic_events_by_level (d : GlucoseData) (glycemic_target : String) :
    Except String LevelEvents :=
  match find_hypoglycemic_events d (if glycemic_target = "diabetes" then 70 else 63) with
  | .error e => .error e
  | .ok allEv =>
    match find_hypoglycemic_events d 54 with
    | .error e => .error e
    | .ok l2Ev => assembleByLevel d allEv l2Ev

/-- `find_hyperglycemic_events_by_level` (inspection lines 700-811): same
matching logic; `diabetes` gives 180/250, every other string 140/250. -/
def find_hyperglycemic_events_by_level (d : GlucoseData) (glycemic_target : String) :
    Except String LevelEvents :=
  match find_hyperglycemic_events d (if glycemic_target = "diabetes" then 180 else 140) with
  | .error e => .error e
  | .ok allEv =>
    match find_hyperglycemic_events d 250 with
    | .error e => .error e
    | .ok l2Ev => assembleByLevel d allEv l2Ev

/-! ### Time in ranges (`time_in_ranges/__init__.py`) -/

/-- `time_in_given_range` (time_in_ranges lines 396-449): the percentage of
the non-NaN samples lying in the given range; NaN when every sample is NaN. -/
def time_in_given_range (glucose : List (Option ℚ)) (th_l th_h : ℚ)
    (include_th_l include_th_h : Bool) : Option ℚ :=
  let values := glucose.filterMap id
  if values.length = 0 then none
  else
    let inRange := values.filter (fun v =>
      (if include_th_l then decide (th_l ≤ v) else decide (th_l < v)) &&
      (if include_th_h then decide (v ≤ th_h) else decide (v < th_h)))
    some (ratDiv ((100 * inRange.length : Nat) : ℚ) ((values.length : Nat) : ℚ))

/-- `time_in_target` (time_in_ranges lines 4-51): unlike the by-level event
finders, an unrecognized glycemic-target name raises `RuntimeError`. -/
def time_in_target (glucose : List (Option ℚ)) (glycemic_target : String) :
    Except String (Option ℚ) :=
  if glycemic_target = "diabetes" then .ok (time_in_given_range glucose 70 180 false false)
  else if glycemic_target = "pregnancy" then .ok (time_in_given_range glucose 63 140 false false)
  else .error "RuntimeError: glycemic_target can be diabetes or pregnancy"

/-! ### Nan islands -/

/-- The grouping loop of `find_nan_islands` (inspection lines 73-86): walk
the ascending NaN indices, closing an island at every gap; `start_tmp` is the
current island's start, `prev` the previously seen index.  Returns the
(start, end) pairs of the islands. -/
def islandsAux (start_tmp prev : Nat) : List Nat → List (Nat × Nat)
  | [] => [(start_tmp, prev)]
  | i :: rest =>
    if prev + 1 < i then (start_tmp, prev) :: islandsAux i i rest
    else islandsAux start_tmp i rest

/-- The (start, end) pairs of the maximal NaN runs, from the ascending list
of NaN indices. -/
def nanIslandBounds : List Nat → List (Nat × Nat)
  | [] => []
  | i :: rest => islandsAux i i rest

/-- The sample indices of one island. -/
def islandRange (p : Nat × Nat) : List Nat := List.range' p.1 (p.2 + 1 - p.1)

/-- `nan_ind = np.where(np.isnan(glucose))[0]`: the NaN positions, ascending. -/
def nanIndices (glucose : List (Option ℚ)) : List Nat :=
  (List.range glucose.length).filter (fun i => glucose.getD i (some 0) = none)

/-- The island classification `end - start + 1 >= th` (inspection lines 79
and 88). -/
def isLongIsland (th : Int) (p : Nat × Nat) : Bool :=
  decide (th ≤ (p.2 : Int) - (p.1 : Int) + 1)

/-- `find_nan_islands` (inspection lines 8-93): the NaN indices, grouped into
maximal runs, each run classified long when `end - start + 1 >= th` and short
otherwise; returns (short indices, long indices, island starts, island ends),
with the 0- and 1-NaN cases special-cased as in the source. -/
def find_nan_islands (glucose : List (Option ℚ)) (th : Int) :
    List Nat × List Nat × List Nat × List Nat :=
  match nanIndices glucose with
  | [] => ([], [], [], [])
  | [i] => if th ≤ 1 then ([], [i], [i], [i]) else ([i], [], [i], [i])
  | i :: j :: rest =>
    let bounds := nanIslandBounds (i :: j :: rest)
    let short := (bounds.filter (fun p => ! isLongIsland th p)).flatMap islandRange
    let long := (bounds.filter (fun p => isLongIsland th p)).flatMap islandRange
    (short, long, bounds.map (fun p => p.1), bounds.map (fun p => p.2))

/-! ### Calendar dates and the MAGE day-window construction
(`py_agata/variability/__init__.py` lines 541-548, 706-713, 909-916) -/

/-- A Gregorian calendar date. -/
structure Date where
  year : Nat
  month : Nat
  day : Nat
deriving DecidableEq, Repr

def isLeapYear (y : Nat) : Bool :=
  (y % 4 = 0 && y % 100 ≠ 0) || y % 400 = 0

def daysInMonth (y m : Nat) : Nat :=
  if m = 2 then (if isLeapYear y then 29 else 28)
  else if m = 4 ∨ m = 6 ∨ m = 9 ∨ m = 11 then 30
  else 31

/-- A date Python's `datetime` accepts. -/
def Date.valid (dt : Date) : Prop :=
  1 ≤ dt.month ∧ dt.month ≤ 12 ∧ 1 ≤ dt.day ∧ dt.day ≤ daysInMonth dt.year dt.month

instance (dt : Date) : Decidable dt.valid := by
  unfold Date.valid; infer_instance

/-- Days in the months of year `y` before month `m` (months `1 .. m-1`). -/
def daysBeforeMonth (y m : Nat) : Nat :=
  ((List.range' 1 (m - 1)).map (daysInMonth y)).sum

/-- Days in the years before year `y`. -/
def daysBeforeYear (y : Nat) : Nat :=
  ((List.range y).map (fun i => if isLeapYear i then 366 else 365)).sum

/-- Day count of a date (Python `date.toordinal` up to a constant offset):
dates subtract exactly through it. -/
def Date.ordinal (dt : Date) : Nat :=
  daysBeforeYear dt.year + daysBeforeMonth dt.year dt.month + dt.day

/-- Python `datetime.replace(day=k)`: `ValueError` when `k` is not a valid
day of the datetime's own month. -/
def Date.replaceDay (dt : Date) (k : Nat) : Except String Date :=
  if 1 ≤ k ∧ k ≤ daysInMonth dt.year dt.month then .ok ⟨dt.year, dt.month, k⟩
  else .error "ValueError: day is out of range for month"

/-- The day-window count of `mage_plus_index` / `mage_minus_index` /
`ef_index`: `first_day` is the first sample's date at midnight,
`last_day = first_day.replace(day=last_date.day + 1)`, and
`n_days = (last_day - first_day).days`. -/
def mageWindowCount (firstDate lastDate : Date) : Except String Int :=
  (firstDate.replaceDay (lastDate.day + 1)).map
    (fun lastDay => (lastDay.ordinal : Int) - (firstDate.ordinal : Int))

/-- The number of midnight-to-midnight windows a series really spans: one
per calendar day from the first sample's date to the last sample's date. -/
def spannedDayCount (firstDate lastDate : Date) : Int :=
  (lastDate.ordinal : Int) - (firstDate.ordinal : Int) + 1

/-! ### Specification predicates for the end-of-series claim -/

/-- The final loop state of a detector run with entry window `em` and exit
window `xm` minutes. -/
def finalScan (d : GlucoseData) (qual : Option ℚ → Bool) (em xm : Nat) : ScanState :=
  eventScan d qual (nSamplesOf d em) (nSamplesOf d xm)

/-- The scan ends with an episode still open, in one of the two claim
branches: mid exit-countdown (flag -1, countdown not at zero), or confirmed
and still qualifying at the last sample (flag 1, count at the entry goal). -/
def openAtEnd (d : GlucoseData) (qual : Option ℚ → Bool) (em xm : Nat) : Prop :=
  ((finalScan d qual em xm).flag = -1 ∧ 0 < (finalScan d qual em xm).count) ∨
  ((finalScan d qual em xm).flag = 1 ∧ (finalScan d qual em xm).count = nSamplesOf d em)

/-- The returned episode list is the scanned episodes plus exactly one more,
whose start is the recorded provisional start and whose duration is computed
from the timestamp of an OBSERVED sample (index `j < length`), plus at most
one sample period — never from a fabricated future sample. -/
def emitsOpenEpisode (d : GlucoseData) (qual : Option ℚ → Bool) (em xm : Nat)
    (r : EpisodeResult) : Prop :=
  r.time_start = (finalScan d qual em xm).starts ++ [(finalScan d qual em xm).tempStart] ∧
  ∃ j, j < d.glucose.length ∧ ∃ extra, extra ≤ d.sampleTime ∧
    r.duration = (finalScan d qual em xm).durs ++
      [elapsedMin (finalScan d qual em xm).tempStart (d.time j) + extra]

/-! ### Concrete series used by the counterexamples and failing inputs -/

/-- A one-sample series (value 120 at minute 0, 5-minute grid). -/
def singleSample : GlucoseData := ⟨0, 5, [some 120]⟩

/-- 20-minute grid: 72 samples at 50 mg/dl (spanning exactly 24 hours up to
the first recovery sample) followed by two samples at 120 mg/dl. -/
def wrapCountdownData : GlucoseData :=
  ⟨0, 20, List.replicate 72 (some 50) ++ List.replicate 2 (some 120)⟩

/-- 20-minute grid spanning 1460 minutes (just over one day): one sample at
50 mg/dl then 73 samples at 120 mg/dl. -/
def overOneDayData : GlucoseData := ⟨0, 20, some 50 :: List.replicate 73 (some 120)⟩

/-- 18-minute grid: 80 samples at 50 mg/dl (an episode spanning exactly 24
hours) followed by two samples at 120 mg/dl. -/
def wrapEpisodeData : GlucoseData :=
  ⟨0, 18, List.replicate 80 (some 50) ++ List.replicate 2 (some 120)⟩

/-- 5-minute grid: seven samples, all at 50 mg/dl (below both the 70 and the
54 mg/dl hypoglycemia thresholds from the start). -/
def allLowData : GlucoseData := ⟨0, 5, List.replicate 7 (some 50)⟩

/-- 5-minute grid: one sample at 120 then three at 50 mg/dl, so the entry
confirmation (3 samples) is reached exactly at the last sample. -/
def openAtEndData : GlucoseData := ⟨0, 5, [some 120, some 50, some 50, some 50]⟩

/-- A two-sample series at 120 mg/dl on a 5-minute grid: no episodes. -/
def twoFlatData : GlucoseData := ⟨0, 5, [some 120, some 120]⟩

end PyAgata

namespace PyAgata

/-! ## Helper lemmas -/

theorem ratMul_eq_mul (a b : ℚ) : ratMul a b = a * b :=
  (Rat.mul_eq_mkRat a b).symm

theorem ratDiv_eq_div (a b : ℚ) (hb : 0 < b) : ratDiv a b = a / b := by
  have hbnum : (0 : ℤ) < b.num := Rat.num_pos.mpr hb
  have hbq : (b.num : ℚ) ≠ 0 := by exact_mod_cast hbnum.ne'
  have had : ((a.den : ℚ)) ≠ 0 := by exact_mod_cast a.den_nz
  have hbd : ((b.den : ℚ)) ≠ 0 := by exact_mod_cast b.den_nz
  have ha' : (a.num : ℚ) = a * a.den := (div_eq_iff had).mp (Rat.num_div_den a)
  have hb' : (b.num : ℚ) = b * b.den := (div_eq_iff hbd).mp (Rat.num_div_den b)
  unfold ratDiv
  rw [Rat.mkRat_eq_divInt, Rat.divInt_eq_div]
  push_cast [Int.natAbs_of_nonneg hbnum.le]
  rw [div_eq_div_iff (by positivity) (by positivity), ha', hb']
  ring

theorem ratDiv_zero_left (b : ℚ) : ratDiv 0 b = 0 := by
  simp [ratDiv]

theorem ratMul_zero_left (b : ℚ) : ratMul 0 b = 0 := by
  simp [ratMul]

theorem foldl_range_inv {σ : Type} (f : σ → Nat → σ) (P : Nat → σ → Prop) (n : Nat)
    (s0 : σ) (h0 : P 0 s0) (hstep : ∀ t s, t < n → P t s → P (t + 1) (f s t)) :
    P n ((List.range n).foldl f s0) := by
  induction n with
  | zero => simpa using h0
  | succ m ih =>
    rw [List.range_succ, List.foldl_append]
    exact hstep m _ (Nat.lt_succ_self m)
      (ih (fun t s ht hp => hstep t s (ht.trans (Nat.lt_succ_self m)) hp))

/-! ## C6: single-sample series -/

/-- C6.  A single-sample series makes the detectors read `data.t.values[1]`,
which raises `IndexError` — they do NOT return the sentinel result the spec
(§7, insufficient-data results) prescribes.  This theorem evaluates the
embedded detectors at the failing input, exhibiting the divergence. -/
theorem episode_detectors_raise_on_single_sample :
    find_hypoglycemic_events singleSample 70 = .error "IndexError" ∧
    find_hyperglycemic_events singleSample 180 = .error "IndexError" ∧
    find_extended_hypoglycemic_events singleSample 54 = .error "IndexError" := by
  refine ⟨?_, ?_, ?_⟩ <;> decide

/-! ## C2: episode duration when the exit countdown reaches zero -/

set_option maxRecDepth 100000 in
/-- C2.  `wrapCountdownData` holds 50 mg/dl for exactly 24 hours before the
first recovery sample, so the elapsed time from the provisional start to the
first disqualifying sample is 1440 minutes; the code computes that elapsed
time through `timedelta.seconds`, which reduces it modulo one day, and emits
duration 0 instead of 1440.  So the emitted end is NOT
`start + elapsed minutes up to the exit-confirmation window` as the claim
states. -/
theorem exit_countdown_duration_wraps_at_24h :
    (find_hypoglycemic_events wrapCountdownData 70).map (fun r => (r.time_start, r.duration))
      = .ok ([0], [0]) ∧
    (wrapCountdownData.time 72 : Int) - (wrapCountdownData.time 0 : Int) = 1440 := by
  constructor
  · decide
  · decide

/-! ## C4: events-per-week normalisation -/

set_option maxRecDepth 100000 in
/-- C4.  `overOneDayData` spans 1460 minutes (just over one day) and contains
one hypoglycemic episode.  `number_days_of_observation` goes through
`timedelta.seconds`, which drops the whole-day part: it returns 20/1440 days
(= 1/72) instead of 1460/1440, and `events_per_week` becomes 504 instead of
the `count / span-in-days * 7 = 504/73` the claim prescribes. -/
theorem events_per_week_drops_whole_days :
    (find_hypoglycemic_events overOneDayData 70).map (fun r => r.events_per_week)
      = .ok (some 504) ∧
    number_days_of_observation overOneDayData = some (mkRat 1 72) ∧
    ratMul (ratDiv 1 (ratDiv 1460 1440)) 7 ≠ (504 : ℚ) := by
  refine ⟨?_, ?_, ?_⟩ <;> decide

/-! ## C7: episode invariants -/

set_option maxRecDepth 100000 in
/-- C7.  `wrapEpisodeData` holds an episode lasting exactly 24 hours; the
`timedelta.seconds` arithmetic wraps its duration to 0, so the emitted
episode has `end = start` (time_end = time_start = 0) and duration 0,
violating `end > start` and `duration = end - start` in elapsed minutes. -/
theorem episode_duration_zero_for_24h_episode :
    (find_hypoglycemic_events wrapEpisodeData 70).map
      (fun r => (r.time_start, r.time_end, r.duration)) = .ok ([0], [0], [0]) ∧
    (wrapEpisodeData.time 80 : Int) - (wrapEpisodeData.time 0 : Int) = 1440 := by
  constructor
  · decide
  · decide

/-! ## C3: the level split -/

/-- C3 counterexample.  On a series that is below 54 mg/dl from its very
first sample, the all-events episode and the level-2 episode start at the
same timestamp; the matching rule looks only for STRICTLY preceding
all-events starts (`distances < 0`), finds none, and excludes nothing from
level 1.  So level-1 count (1) + level-2 count (1) exceeds the all-events
count (1), refuting the claimed inequality. -/
theorem level_split_counts_can_exceed_all_events :
    (find_hypoglycemic_events_by_level allLowData "diabetes").map
      (fun r => (r.allEvents.time_start.length, r.l1.time_start.length, r.l2.time_start.length))
      = .ok (1, 1, 1) ∧ ¬ (1 + 1 ≤ 1) := by
  constructor
  · decide
  · decide

theorem maskFilter_sublist {α : Type} (xs : List α) (flags : List Bool) :
    (maskFilter xs flags).Sublist xs := by
  induction xs generalizing flags with
  | nil => simp [maskFilter]
  | cons x xs ih =>
    cases flags with
    | nil => simp [maskFilter]
    | cons b fs =>
      cases b with
      | false =>
        simpa [maskFilter] using List.Sublist.cons x (ih fs)
      | true =>
        simpa [maskFilter] using List.Sublist.cons₂ x (ih fs)

theorem assembleByLevel_ok (d : GlucoseData) (a l2 : EpisodeResult) (r : LevelEvents)
    (h : assembleByLevel d a l2 = .ok r) :
    r.allEvents = a ∧
    r.l1.time_start = maskFilter a.time_start (l2Flags a.time_start l2.time_start) ∧
    r.l2 = l2 := by
  cases hnd : number_days_of_observation d with
  | none =>
    simp only [assembleByLevel, hnd] at h
    cases h
    exact ⟨rfl, rfl, rfl⟩
  | some nd =>
    simp only [assembleByLevel, hnd] at h
    by_cases h0 : nd = 0
    · rw [if_pos h0] at h; cases h
    · rw [if_neg h0] at h
      cases h
      exact ⟨rfl, rfl, rfl⟩

/-- C3 amended.  What does hold: level 1 consists exactly of the all-events
episodes not matched by any level-2 episode, where a level-2 start matches
the closest STRICTLY preceding all-events start; hence the level-1 bucket is
a sublist of the all-events bucket and its count never exceeds the
all-events count, but level-1 + level-2 may exceed the all-events count when
a level-2 episode starts exactly at an all-events start. -/
theorem level1_is_sublist_of_all_events (d : GlucoseData) (tgt : String) :
    (∀ r, find_hypoglycemic_events_by_level d tgt = .ok r →
      r.l1.time_start.Sublist r.allEvents.time_start ∧
      r.l1.time_start.length ≤ r.allEvents.time_start.length) ∧
    (∀ r, find_hyperglycemic_events_by_level d tgt = .ok r →
      r.l1.time_start.Sublist r.allEvents.time_start ∧
      r.l1.time_start.length ≤ r.allEvents.time_start.length) := by
  constructor
  · intro r h
    unfold find_hypoglycemic_events_by_level at h
    revert h
    cases hA : find_hypoglycemic_events d (if tgt = "diabetes" then 70 else 63) with
    | error e => intro h; cases h
    | ok a =>
      cases hB : find_hypoglycemic_events d 54 with
      | error e => intro h; cases h
      | ok l2 =>
        intro h
        obtain ⟨hall, hl1, -⟩ := assembleByLevel_ok d a l2 r h
        rw [hl1, hall]
        exact ⟨maskFilter_sublist _ _, (maskFilter_sublist _ _).length_le⟩
  · intro r h
    unfold find_hyperglycemic_events_by_level at h
    revert h
    cases hA : find_hyperglycemic_events d (if tgt = "diabetes" then 180 else 140) with
    | error e => intro h; cases h
    | ok a =>
      cases hB : find_hyperglycemic_events d 250 with
      | error e => intro h; cases h
      | ok l2 =>
        intro h
        obtain ⟨hall, hl1, -⟩ := assembleByLevel_ok d a l2 r h
        rw [hl1, hall]
        exact ⟨maskFilter_sublist _ _, (maskFilter_sublist _ _).length_le⟩

/-! ## C9: glycemic-target validation -/

/-- C9 counterexample.  `find_hypoglycemic_events_by_level` applied to the
unrecognized glycemic target "foo" does NOT raise: it silently computes a
result (here one level-2 episode), falling back to the pregnancy
thresholds.  This refutes the claim that every function taking a
glycemic-target name raises on unrecognized values. -/
theorem by_level_accepts_unrecognized_target :
    (find_hypoglycemic_events_by_level allLowData "foo").map
      (fun r => r.l2.time_start.length) = .ok 1 := by
  decide

/-- C9 amended.  The time-in-range functions do raise `RuntimeError` on an
unrecognized glycemic-target name, but the by-level event finders treat
every name other than "diabetes" — recognized or not — as the pregnancy
profile. -/
theorem target_validation_split :
    (∀ (g : List (Option ℚ)) (s : String), s ≠ "diabetes" → s ≠ "pregnancy" →
      time_in_target g s =
        .error "RuntimeError: glycemic_target can be diabetes or pregnancy") ∧
    (∀ (d : GlucoseData) (s : String), s ≠ "diabetes" →
      find_hypoglycemic_events_by_level d s = find_hypoglycemic_events_by_level d "pregnancy" ∧
      find_hyperglycemic_events_by_level d s = find_hyperglycemic_events_by_level d "pregnancy") := by
  constructor
  · intro g s h1 h2
    unfold time_in_target
    rw [if_neg h1, if_neg h2]
  · intro d s hs
    have hp : ("pregnancy" : String) ≠ "diabetes" := by decide
    constructor
    · unfold find_hypoglycemic_events_by_level
      rw [if_neg hs, if_neg hp]
    · unfold find_hyperglycemic_events_by_level
      rw [if_neg hs, if_neg hp]

/-! ## C5: sentinel asymmetry for zero episodes -/

theorem eventStep_starts_durs_len (d : GlucoseData) (qual : Option ℚ → Bool)
    (nIn nOut : Int) (s : ScanState) (t : Nat)
    (h : s.starts.length = s.durs.length) :
    (eventStep d qual nIn nOut s t).starts.length =
      (eventStep d qual nIn nOut s t).durs.length := by
  unfold eventStep
  split_ifs <;> try simp [h]
  all_goals split_ifs <;> simp [h]

theorem eventTail_starts_durs_len (d : GlucoseData) (nIn nOut : Int) (s : ScanState)
    (h : s.starts.length = s.durs.length) :
    (eventTail d nIn nOut s).starts.length = (eventTail d nIn nOut s).durs.length := by
  unfold eventTail
  split_ifs <;> try simp [h]
  all_goals split_ifs <;> simp [h]

theorem eventScan_starts_durs_len (d : GlucoseData) (qual : Option ℚ → Bool)
    (nIn nOut : Int) :
    (eventScan d qual nIn nOut).starts.length = (eventScan d qual nIn nOut).durs.length :=
  foldl_range_inv (eventStep d qual nIn nOut)
    (fun _ s => s.starts.length = s.durs.length) d.glucose.length initState rfl
    (fun t s _ hp => eventStep_starts_durs_len d qual nIn nOut s t hp)

theorem findEvents_no_episode_sentinels (d : GlucoseData) (qual : Option ℚ → Bool)
    (em xm : Nat) (r : EpisodeResult) (hne : d.glucose ≠ [])
    (hok : findEvents d qual em xm = .ok r) (hdur : r.duration = []) :
    r.mean_duration = none ∧ r.events_per_week = some 0 := by
  have h0 : ¬ (d.glucose.length = 0) := by
    simpa [List.length_eq_zero] using hne
  have hnd : number_days_of_observation d =
      some (ratDiv (((d.glucose.length - 1) * d.delta % 1440 : Nat) : ℚ) 1440) := by
    unfold number_days_of_observation
    rw [if_neg h0]
  unfold findEvents at hok
  rw [if_neg h0] at hok
  by_cases h1 : d.glucose.length = 1
  · rw [if_pos h1] at hok; cases hok
  · rw [if_neg h1] at hok
    by_cases h2 : d.sampleTime = 0
    · rw [if_pos h2] at hok; cases hok
    · rw [if_neg h2] at hok
      simp only [hnd] at hok
      by_cases h3 : ratDiv (((d.glucose.length - 1) * d.delta % 1440 : Nat) : ℚ) 1440 = 0
      · rw [if_pos h3] at hok; cases hok
      · rw [if_neg h3] at hok
        cases hok
        have hlen := eventTail_starts_durs_len d (nSamplesOf d em) (nSamplesOf d xm)
          (eventScan d qual (nSamplesOf d em) (nSamplesOf d xm))
          (eventScan_starts_durs_len d qual (nSamplesOf d em) (nSamplesOf d xm))
        simp only at hdur
        rw [hdur] at hlen
        have hstarts := List.length_eq_zero.mp hlen
        constructor
        · simp [hdur]
        · simp [hstarts, ratDiv_zero_left, ratMul_zero_left]

/-- C5 counterexample.  The claim quantifies over every non-empty series,
but on a (non-empty) single-sample series with zero episodes the detector
raises `IndexError` instead of returning `events_per_week = 0`. -/
theorem single_sample_zero_episodes_not_ok :
    find_hypoglycemic_events singleSample 70 = .error "IndexError" ∧
    singleSample.glucose ≠ [] := by
  constructor
  · decide
  · decide

/-- C5 amended.  Whenever a detector call RETURNS (which a non-empty series
does not guarantee: one sample raises `IndexError`, and a grid step or span
that is a multiple of 24 hours raises `ZeroDivisionError`), zero episodes on
a non-empty series give `mean_duration = NaN` but `events_per_week = 0`, and
an empty series gives the all-NaN sentinel result. -/
theorem zero_episode_sentinel_asymmetry (d : GlucoseData) (th : ℚ) :
    (∀ r, d.glucose ≠ [] → find_hypoglycemic_events d th = .ok r → r.duration = [] →
      r.mean_duration = none ∧ r.events_per_week = some 0) ∧
    (∀ r, d.glucose ≠ [] → find_hyperglycemic_events d th = .ok r → r.duration = [] →
      r.mean_duration = none ∧ r.events_per_week = some 0) ∧
    (∀ r, d.glucose ≠ [] → find_extended_hypoglycemic_events d th = .ok r → r.duration = [] →
      r.mean_duration = none ∧ r.events_per_week = some 0) ∧
    (d.glucose = [] →
      find_hypoglycemic_events d th = .ok emptyResult ∧
      find_hyperglycemic_events d th = .ok emptyResult ∧
      find_extended_hypoglycemic_events d th = .ok emptyResult) := by
  refine ⟨?_, ?_, ?_, ?_⟩
  · intro r hne hok hdur
    exact findEvents_no_episode_sentinels d (hypoQual th) 15 15 r hne hok hdur
  · intro r hne hok hdur
    exact findEvents_no_episode_sentinels d (hyperQual th) 15 15 r hne hok hdur
  · intro r hne hok hdur
    exact findEvents_no_episode_sentinels d (hypoQual th) 120 15 r hne hok hdur
  · intro hempty
    have h0 : d.glucose.length = 0 := by rw [hempty]; rfl
    refine ⟨?_, ?_, ?_⟩ <;>
      simp [find_hypoglycemic_events, find_hyperglycemic_events,
        find_extended_hypoglycemic_events, findEvents, h0]

/-! ## C8: the nan-island scan -/

theorem nanIndices_pairwise (g : List (Option ℚ)) : (nanIndices g).Pairwise (· < ·) :=
  (List.pairwise_lt_range g.length).sublist (List.filter_sublist _)

theorem mem_nanIndices (g : List (Option ℚ)) (i : Nat) :
    i ∈ nanIndices g ↔ i < g.length ∧ g.getD i (some 0) = none := by
  simp [nanIndices, List.mem_filter]

theorem islandsAux_flatMap (rest : List Nat) : ∀ s p : Nat, s ≤ p →
    List.Chain (· < ·) p rest →
    (islandsAux s p rest).flatMap islandRange = List.range' s (p + 1 - s) ++ rest := by
  induction rest with
  | nil =>
    intro s p _ _
    simp [islandsAux, islandRange]
  | cons i rest ih =>
    intro s p hsp hchain
    rw [List.chain_cons] at hchain
    obtain ⟨hpi, hchain⟩ := hchain
    unfold islandsAux
    by_cases hgap : p + 1 < i
    · rw [if_pos hgap, List.flatMap_cons, ih i i le_rfl hchain]
      simp [islandRange]
    · rw [if_neg hgap]
      have hip : i = p + 1 := le_antisymm (Nat.not_lt.mp hgap) hpi
      rw [ih s i (hsp.trans hpi.le) hchain, hip]
      have h1 : p + 1 + 1 - s = (p + 1 - s) + 1 := by omega
      have h2 : s + 1 * (p + 1 - s) = p + 1 := by omega
      rw [h1, List.range'_concat, h2, List.append_assoc, List.singleton_append]

theorem nanIslandBounds_flatMap (l : List Nat) (hl : l.Pairwise (· < ·)) :
    (nanIslandBounds l).flatMap islandRange = l := by
  cases l with
  | nil => rfl
  | cons i rest =>
    have hchain : List.Chain (· < ·) i rest := List.chain_iff_pairwise.mpr hl
    have h := islandsAux_flatMap rest i i le_rfl hchain
    simpa [nanIslandBounds, islandRange] using h

theorem find_nan_islands_nil (g : List (Option ℚ)) (th : Int)
    (h : nanIndices g = []) : find_nan_islands g th = ([], [], [], []) := by
  unfold find_nan_islands
  rw [h]

theorem find_nan_islands_single (g : List (Option ℚ)) (th : Int) (a : Nat)
    (h : nanIndices g = [a]) :
    find_nan_islands g th =
      if th ≤ 1 then ([], [a], [a], [a]) else ([a], [], [a], [a]) := by
  unfold find_nan_islands
  rw [h]

theorem find_nan_islands_cons (g : List (Option ℚ)) (th : Int) (a b : Nat)
    (rest : List Nat) (h : nanIndices g = a :: b :: rest) :
    find_nan_islands g th =
      (((nanIslandBounds (a :: b :: rest)).filter
          (fun p => ! isLongIsland th p)).flatMap islandRange,
       ((nanIslandBounds (a :: b :: rest)).filter
          (fun p => isLongIsland th p)).flatMap islandRange,
       (nanIslandBounds (a :: b :: rest)).map (fun p => p.1),
       (nanIslandBounds (a :: b :: rest)).map (fun p => p.2)) := by
  unfold find_nan_islands
  rw [h]

/-- C8.  `find_nan_islands` classifies every missing-value index exactly
once: an index is in the short bucket or in the long bucket exactly when its
sample is NaN, and no index is in both buckets (islands never overlap). -/
theorem nan_islands_partition_missing_indices (g : List (Option ℚ)) (th : Int) :
    (∀ i, (i ∈ (find_nan_islands g th).1 ∨ i ∈ (find_nan_islands g th).2.1) ↔
      (i < g.length ∧ g.getD i (some 0) = none)) ∧
    (find_nan_islands g th).1.Disjoint (find_nan_islands g th).2.1 := by
  cases hni : nanIndices g with
  | nil =>
    rw [find_nan_islands_nil g th hni]
    constructor
    · intro i
      rw [← mem_nanIndices g i, hni]
      simp
    · simp [List.Disjoint]
  | cons a rest =>
    cases rest with
    | nil =>
      rw [find_nan_islands_single g th a hni]
      by_cases hth : th ≤ 1
      · rw [if_pos hth]
        constructor
        · intro i
          rw [← mem_nanIndices g i, hni]
          simp
        · simp [List.Disjoint]
      · rw [if_neg hth]
        constructor
        · intro i
          rw [← mem_nanIndices g i, hni]
          simp
        · simp [List.Disjoint]
    | cons b rest2 =>
      rw [find_nan_islands_cons g th a b rest2 hni]
      have hpw : (a :: b :: rest2).Pairwise (· < ·) := by
        rw [← hni]; exact nanIndices_pairwise g
      have hflat := nanIslandBounds_flatMap (a :: b :: rest2) hpw
      have hperm2 : (((nanIslandBounds (a :: b :: rest2)).filter
            (fun p => isLongIsland th p)).flatMap islandRange ++
          ((nanIslandBounds (a :: b :: rest2)).filter
            (fun p => ! isLongIsland th p)).flatMap islandRange).Perm
          (a :: b :: rest2) := by
        have h1 := (List.filter_append_perm (fun p => isLongIsland th p)
          (nanIslandBounds (a :: b :: rest2))).flatMap_right islandRange
        rw [List.flatMap_append, hflat] at h1
        exact h1
      have hnodup : (a :: b :: rest2).Nodup := hpw.nodup
      obtain ⟨-, -, hdisj⟩ := List.nodup_append.mp (hperm2.symm.nodup hnodup)
      constructor
      · intro i
        rw [← mem_nanIndices g i, hni, ← hperm2.mem_iff]
        simp only [List.mem_append]
        tauto
      · exact hdisj.symm

/-! ## C1: end-of-series handling -/

theorem eventStep_inv (d : GlucoseData) (qual : Option ℚ → Bool) (nIn nOut : Int)
    (hOut : 1 ≤ nOut) (t : Nat) (s : ScanState)
    (h : (s.flag = 1 → 1 ≤ t) ∧
      (s.flag = -1 → 1 ≤ s.count ∧ s.count ≤ nOut - 1 ∧ nOut - s.count + 1 ≤ (t : Int))) :
    ((eventStep d qual nIn nOut s t).flag = 1 → 1 ≤ t + 1) ∧
    ((eventStep d qual nIn nOut s t).flag = -1 →
      1 ≤ (eventStep d qual nIn nOut s t).count ∧
      (eventStep d qual nIn nOut s t).count ≤ nOut - 1 ∧
      nOut - (eventStep d qual nIn nOut s t).count + 1 ≤ ((t + 1 : Nat) : Int)) := by
  obtain ⟨h1, hm1⟩ := h
  simp only [eventStep]
  split_ifs with hq hc0 hcf hE hE2 hcf2 hE3 hA hE4 hB hE5 hE6 hE7
  all_goals refine ⟨fun hf => ?_, fun hf => ?_⟩
  all_goals simp only at hf ⊢
  all_goals try omega
  · have ht := h1 hE5
    simp only [and_true] at hE6
    push_cast
    omega
  · have hm := hm1 hf
    simp only at hE7
    push_cast
    omega

theorem eventScan_inv (d : GlucoseData) (qual : Option ℚ → Bool) (nIn nOut : Int)
    (hOut : 1 ≤ nOut) :
    ((eventScan d qual nIn nOut).flag = 1 → 1 ≤ d.glucose.length) ∧
    ((eventScan d qual nIn nOut).flag = -1 →
      1 ≤ (eventScan d qual nIn nOut).count ∧
      (eventScan d qual nIn nOut).count ≤ nOut - 1 ∧
      nOut - (eventScan d qual nIn nOut).count + 1 ≤ (d.glucose.length : Int)) :=
  foldl_range_inv (eventStep d qual nIn nOut)
    (fun t s => (s.flag = 1 → 1 ≤ t) ∧
      (s.flag = -1 → 1 ≤ s.count ∧ s.count ≤ nOut - 1 ∧ nOut - s.count + 1 ≤ (t : Int)))
    d.glucose.length initState
    ⟨fun hf => absurd hf (by decide), fun hf => absurd hf (by decide)⟩
    (fun t s _ hp => eventStep_inv d qual nIn nOut hOut t s hp)

theorem findEvents_open_episode_emitted (d : GlucoseData) (qual : Option ℚ → Bool)
    (em xm : Nat) (r : EpisodeResult) (hok : findEvents d qual em xm = .ok r)
    (hOut : 1 ≤ nSamplesOf d xm) (hopen : openAtEnd d qual em xm) :
    emitsOpenEpisode d qual em xm r := by
  unfold openAtEnd finalScan at hopen
  have h0 : ¬ (d.glucose.length = 0) := by
    intro h0
    have hscan : eventScan d qual (nSamplesOf d em) (nSamplesOf d xm) = initState := by
      unfold eventScan
      rw [h0]
      rfl
    rcases hopen with ⟨hf, -⟩ | ⟨hf, -⟩ <;> rw [hscan] at hf <;> exact absurd hf (by decide)
  have hinv := eventScan_inv d qual (nSamplesOf d em) (nSamplesOf d xm) hOut
  unfold findEvents at hok
  rw [if_neg h0] at hok
  by_cases h1 : d.glucose.length = 1
  · rw [if_pos h1] at hok; cases hok
  · rw [if_neg h1] at hok
    by_cases h2 : d.sampleTime = 0
    · rw [if_pos h2] at hok; cases hok
    · rw [if_neg h2] at hok
      have hnd : number_days_of_observation d =
          some (ratDiv (((d.glucose.length - 1) * d.delta % 1440 : Nat) : ℚ) 1440) := by
        unfold number_days_of_observation
        rw [if_neg h0]
      simp only [hnd] at hok
      by_cases h3 : ratDiv (((d.glucose.length - 1) * d.delta % 1440 : Nat) : ℚ) 1440 = 0
      · rw [if_pos h3] at hok; cases hok
      · rw [if_neg h3] at hok
        cases hok
        unfold emitsOpenEpisode finalScan
        set S := eventScan d qual (nSamplesOf d em) (nSamplesOf d xm) with hS
        rcases hopen with ⟨hf, hc⟩ | ⟨hf, hc⟩
        · obtain ⟨hcge, hcle, hspan⟩ := hinv.2 hf
          simp only [eventTail]
          rw [if_pos (And.intro hc hf)]
          rw [if_neg (by
            intro hcontra
            simp only at hcontra
            exact absurd (hcontra.2.symm.trans hf) (by decide))]
          refine ⟨rfl, ((d.glucose.length : Int) - 1 -
            (nSamplesOf d xm - S.count - 1)).toNat, by omega, 0, by omega, ?_⟩
          have htime : d.timeAt ((d.glucose.length : Int) - 1 - (nSamplesOf d xm - S.count - 1)) =
              d.time (((d.glucose.length : Int) - 1 - (nSamplesOf d xm - S.count - 1)).toNat) := by
            unfold GlucoseData.timeAt
            rw [if_neg (by omega)]
          simp only
          rw [Nat.add_zero, htime]
        · obtain hlen1 := hinv.1 hf
          simp only [eventTail]
          have hin : ¬ (0 < S.count ∧ S.flag = -1) := by
            intro hcontra
            exact absurd (hcontra.2.symm.trans hf) (by decide)
          rw [if_neg hin]
          rw [if_pos (And.intro hc hf)]
          refine ⟨rfl, d.glucose.length - 1, by omega, d.sampleTime, le_rfl, ?_⟩
          have htime : d.timeAt ((d.glucose.length : Int) - 1) = d.time (d.glucose.length - 1) := by
            unfold GlucoseData.timeAt
            rw [if_neg (by omega)]
            congr 1
            omega
          simp only
          rw [htime]

/-- C1.  If the detector scan ends while an episode is still open — the
entry confirmation is at full count at the last sample (flag 1), or the scan
is mid exit-countdown before the countdown reaches zero (flag -1) — then
`find_hypoglycemic_events`, `find_hyperglycemic_events` and
`find_extended_hypoglycemic_events` all still emit that episode: the result
holds the scanned episodes plus exactly one more, whose start is the
recorded provisional start and whose duration is computed from the
timestamp of an observed sample (plus at most one sample period), never
from fabricated future samples. -/
theorem open_episode_at_series_end_is_emitted (d : GlucoseData) (th : ℚ) :
    (∀ r, find_hypoglycemic_events d th = .ok r → 1 ≤ nSamplesOf d 15 →
      openAtEnd d (hypoQual th) 15 15 → emitsOpenEpisode d (hypoQual th) 15 15 r) ∧
    (∀ r, find_hyperglycemic_events d th = .ok r → 1 ≤ nSamplesOf d 15 →
      openAtEnd d (hyperQual th) 15 15 → emitsOpenEpisode d (hyperQual th) 15 15 r) ∧
    (∀ r, find_extended_hypoglycemic_events d th = .ok r → 1 ≤ nSamplesOf d 15 →
      openAtEnd d (hypoQual th) 120 15 → emitsOpenEpisode d (hypoQual th) 120 15 r) :=
  ⟨fun r hok hOut hopen => findEvents_open_episode_emitted d (hypoQual th) 15 15 r hok hOut hopen,
   fun r hok hOut hopen => findEvents_open_episode_emitted d (hyperQual th) 15 15 r hok hOut hopen,
   fun r hok hOut hopen => findEvents_open_episode_emitted d (hypoQual th) 120 15 r hok hOut hopen⟩

/-- C1 witness: on `openAtEndData` (entry confirmation reached exactly at
the last sample) the hypoglycemic detector emits the open episode, as the
claim theorem predicts at this concrete input. -/
theorem open_episode_at_series_end_witness :
    emitsOpenEpisode openAtEndData (hypoQual 70) 15 15 ⟨[5], [20], [15], some 15, some 672⟩ :=
  (open_episode_at_series_end_is_emitted openAtEndData 70).1
    ⟨[5], [20], [15], some 15, some 672⟩ (by decide) (by decide)
    (by
      unfold openAtEnd finalScan
      exact Or.inr ⟨by decide, by decide⟩)

/-! ## C10: the MAGE day-window construction -/

theorem daysInMonth_pos (y m : Nat) : 1 ≤ daysInMonth y m := by
  unfold daysInMonth
  split_ifs <;> omega

theorem daysInMonth_le (y m : Nat) : daysInMonth y m ≤ 31 := by
  unfold daysInMonth
  split_ifs <;> omega

theorem daysBeforeMonth_strict_mono (y : Nat) {m m' : Nat} (hm : 1 ≤ m) (h : m < m') :
    daysBeforeMonth y m < daysBeforeMonth y m' := by
  unfold daysBeforeMonth
  have h2 := List.range'_append 1 (m - 1) (m' - m) 1
  have h3 : m' - m + (m - 1) = m' - 1 := by omega
  rw [h3] at h2
  rw [← h2, List.map_append, List.sum_append]
  have hpos : 0 < ((List.range' (1 + 1 * (m - 1)) (m' - m)).map (daysInMonth y)).sum := by
    obtain ⟨k, hk⟩ : ∃ k, m' - m = k + 1 := ⟨m' - m - 1, by omega⟩
    rw [hk, List.range'_succ, List.map_cons, List.sum_cons]
    have := daysInMonth_pos y (1 + 1 * (m - 1))
    omega
  omega

theorem daysBeforeMonth_le_341 (y m : Nat) (hm : m ≤ 12) : daysBeforeMonth y m ≤ 341 := by
  unfold daysBeforeMonth
  have hall : ∀ x ∈ (List.range' 1 (m - 1)).map (daysInMonth y), x ≤ 31 := by
    intro x hx
    simp only [List.mem_map] at hx
    obtain ⟨i, -, rfl⟩ := hx
    exact daysInMonth_le y i
  have hbound := List.sum_le_card_nsmul ((List.range' 1 (m - 1)).map (daysInMonth y)) 31 hall
  simp only [List.length_map, List.length_range', smul_eq_mul] at hbound
  omega

theorem daysBeforeYear_add_le (y y' : Nat) (h : y < y') :
    daysBeforeYear y + 365 ≤ daysBeforeYear y' := by
  unfold daysBeforeYear
  have h2 := List.range'_append 0 y (y' - y) 1
  have h3 : y' - y + y = y' := by omega
  rw [h3] at h2
  rw [List.range_eq_range', List.range_eq_range', ← h2, List.map_append, List.sum_append]
  have hextra : 365 ≤
      ((List.range' (0 + 1 * y) (y' - y)).map (fun i => if isLeapYear i then 366 else 365)).sum := by
    obtain ⟨k, hk⟩ : ∃ k, y' - y = k + 1 := ⟨y' - y - 1, by omega⟩
    rw [hk, List.range'_succ, List.map_cons, List.sum_cons]
    split_ifs <;> omega
  omega

theorem ordinal_month_part_ne (a b : Date) (ha1 : 1 ≤ a.month) (ha12 : a.month ≤ 12)
    (hb1 : 1 ≤ b.month) (hb12 : b.month ≤ 12)
    (hne : (a.year, a.month) ≠ (b.year, b.month)) :
    daysBeforeYear a.year + daysBeforeMonth a.year a.month ≠
      daysBeforeYear b.year + daysBeforeMonth b.year b.month := by
  by_cases hy : a.year = b.year
  · have hmne : a.month ≠ b.month := fun hm => hne (by rw [hy, hm])
    rw [hy]
    rcases Nat.lt_or_ge a.month b.month with hlt | hge
    · have := daysBeforeMonth_strict_mono b.year ha1 hlt
      omega
    · have hlt : b.month < a.month := by omega
      have := daysBeforeMonth_strict_mono b.year hb1 hlt
      omega
  · rcases Nat.lt_or_ge a.year b.year with hlt | hge
    · have hy1 := daysBeforeYear_add_le a.year b.year hlt
      have hy2 := daysBeforeMonth_le_341 a.year a.month ha12
      omega
    · have hlt : b.year < a.year := by omega
      have hy1 := daysBeforeYear_add_le b.year a.year hlt
      have hy2 := daysBeforeMonth_le_341 b.year b.month hb12
      omega

/-- C10.  For every pair of valid first/last sample dates in the class the
claim describes — `last.day + 1` is not a valid day of the first sample's
month, or the series crosses a calendar month (or year) boundary — the
day-window construction `first_day.replace(day=last_day.day + 1)` of
`mage_plus_index` / `mage_minus_index` / `ef_index` either raises
`ValueError` or yields a window count different from the number of
midnight-to-midnight windows the series actually spans. -/
theorem mage_day_windows_wrong_on_month_boundary (first last : Date)
    (hfv : first.valid) (hlv : last.valid)
    (hclass : daysInMonth first.year first.month < last.day + 1 ∨
      (first.year, first.month) ≠ (last.year, last.month)) :
    mageWindowCount first last = .error "ValueError: day is out of range for month" ∨
    ∃ k, mageWindowCount first last = .ok k ∧ k ≠ spannedDayCount first last := by
  unfold mageWindowCount Date.replaceDay
  by_cases hday : 1 ≤ last.day + 1 ∧ last.day + 1 ≤ daysInMonth first.year first.month
  · right
    rw [if_pos hday]
    refine ⟨_, rfl, ?_⟩
    have hne : (first.year, first.month) ≠ (last.year, last.month) := by
      rcases hclass with hcl | hcl
      · exact absurd hday.2 (by omega)
      · exact hcl
    obtain ⟨hf1, hf12, -, -⟩ := hfv
    obtain ⟨hl1, hl12, -, -⟩ := hlv
    have hA := ordinal_month_part_ne first last hf1 hf12 hl1 hl12 hne
    unfold spannedDayCount Date.ordinal
    simp only
    push_cast
    omega
  · left
    rw [if_neg hday]
    rfl

/-- C10 witness: a series running from 2001-01-28 to 2001-02-02 (crossing a
month boundary, with `day + 1 = 3` still a valid January day) gets a wrong
day-window count. -/
theorem mage_day_windows_witness :
    mageWindowCount ⟨2001, 1, 28⟩ ⟨2001, 2, 2⟩ =
      .error "ValueError: day is out of range for month" ∨
    ∃ k, mageWindowCount ⟨2001, 1, 28⟩ ⟨2001, 2, 2⟩ = .ok k ∧
      k ≠ spannedDayCount ⟨2001, 1, 28⟩ ⟨2001, 2, 2⟩ :=
  mage_day_windows_wrong_on_month_boundary ⟨2001, 1, 28⟩ ⟨2001, 2, 2⟩ (by decide) (by decide)
    (Or.inr (by decide))

end PyAgata
